import Mathlib

/-!
Verification of the `tel` terminal query browser: a shallow embedding of the
Query Session & Identity subsystem (filter composition, row identity hashing,
session store, catalog store, presentation, interaction controller) together
with theorems about its behaviour.

Sources embedded here:
* the `db` package (`GetContent`),
* the `ui` model file (`ToVerticalView`, `SelectRowByHash`, `FilterContent`,
  `Update`),
* the `config` package (`GetQueryConfig`, `InsertItemIfNotExists`,
  `InsertConfig`, `SaveConfigFromTable`, `SaveInstance`, `generateUUID`,
  the `instance` table schema),
* `cmd/tel/main.go` (`applyColumnWidths` and the startup display pipeline).

External collaborators (the SQL drivers, the bubbletea widgets, the SQLite
random source) are passed in as explicit parameters, so every definition is a
pure, executable function.
-/

set_option maxRecDepth 20000

namespace Tel

/-! ## Basic data shapes

`table.Row` is a slice of rendered cell strings; `table.Column` carries a
title and a width. -/

abbrev Row := List String

structure Column where
  title : String
  width : Nat
deriving DecidableEq, Repr

deriving instance DecidableEq for Except

/-! ## Go string helpers

Faithful models of the `strings` package functions used by the source
(`strings.TrimSpace`, `strings.TrimPrefix(s, "WHERE")`, `strings.ToUpper`,
`strings.Join(row, "|")`), written over `String.data` so that they are
directly executable and easy to reason about.  Lean's `Char.toUpper` (ASCII
upper-casing) stands in for Go's unicode upper-casing; the column names in
scope are ASCII. -/

def goTrimSpace (s : String) : String :=
  ⟨List.reverse (List.dropWhile Char.isWhitespace
    (List.reverse (List.dropWhile Char.isWhitespace s.data)))⟩

/-- Model of `strings.TrimPrefix(filter, "WHERE")`: drop a leading `"WHERE"`
when present, otherwise return the string unchanged. -/
def trimLeadingWHERE (s : String) : String :=
  if s.data.take 5 = ['W', 'H', 'E', 'R', 'E'] then ⟨s.data.drop 5⟩ else s

def goToUpper (s : String) : String :=
  ⟨s.data.map Char.toUpper⟩

/-- Model of `strings.Join(row, "|")` as used by the Row Identity Hasher. -/
def joinCells : List String → String
  | [] => ""
  | [s] => s
  | s :: rest => s ++ "|" ++ joinCells rest

/-- Association-list lookup standing in for a Go `map` read (`m[k]` with the
comma-ok form). -/
def lookupN (m : List (String × Nat)) (k : String) : Option Nat :=
  (m.find? (fun p => p.1 == k)).map (fun p => p.2)

def lookupS (m : List (String × String)) (k : String) : Option String :=
  (m.find? (fun p => p.1 == k)).map (fun p => p.2)

/-! ## SHA-256

The Go source computes `fmt.Sprintf("%x", sha256.Sum256([]byte(s)))`.  The
digest is modelled bit-for-bit: UTF-8 encoding of the joined string, FIPS
180-4 padding, the 64-round compression function over `Nat` arithmetic
truncated at 32 bits, and lowercase hex rendering. -/

def utf8Bytes (c : Char) : List Nat :=
  let n := c.toNat
  if n < 128 then [n]
  else if n < 2048 then
    [192 ||| (n >>> 6), 128 ||| (n &&& 63)]
  else if n < 65536 then
    [224 ||| (n >>> 12), 128 ||| ((n >>> 6) &&& 63), 128 ||| (n &&& 63)]
  else
    [240 ||| (n >>> 18), 128 ||| ((n >>> 12) &&& 63),
     128 ||| ((n >>> 6) &&& 63), 128 ||| (n &&& 63)]

/-- Byte sequence of a Go string (Go strings are UTF-8 byte slices). -/
def strBytes (s : String) : List Nat :=
  s.data.foldr (fun c acc => utf8Bytes c ++ acc) []

/-- Truncation to a 32-bit word. -/
def w32 (n : Nat) : Nat := n % 4294967296

def rotr32 (x n : Nat) : Nat := w32 ((x >>> n) ||| (x <<< (32 - n)))

def shaCh (x y z : Nat) : Nat := (x &&& y) ^^^ ((x ^^^ 4294967295) &&& z)

def shaMaj (x y z : Nat) : Nat := (x &&& y) ^^^ (x &&& z) ^^^ (y &&& z)

def bigSigma0 (x : Nat) : Nat := rotr32 x 2 ^^^ rotr32 x 13 ^^^ rotr32 x 22

def bigSigma1 (x : Nat) : Nat := rotr32 x 6 ^^^ rotr32 x 11 ^^^ rotr32 x 25

def smallSigma0 (x : Nat) : Nat := rotr32 x 7 ^^^ rotr32 x 18 ^^^ (x >>> 3)

def smallSigma1 (x : Nat) : Nat := rotr32 x 17 ^^^ rotr32 x 19 ^^^ (x >>> 10)

def shaK : List Nat :=
  [1116352408, 1899447441, 3049323471, 3921009573,
   961987163, 1508970993, 2453635748, 2870763221,
   3624381080, 310598401, 607225278, 1426881987,
   1925078388, 2162078206, 2614888103, 3248222580,
   3835390401, 4022224774, 264347078, 604807628,
   770255983, 1249150122, 1555081692, 1996064986,
   2554220882, 2821834349, 2952996808, 3210313671,
   3336571891, 3584528711, 113926993, 338241895,
   666307205, 773529912, 1294757372, 1396182291,
   1695183700, 1986661051, 2177026350, 2456956037,
   2730485921, 2820302411, 3259730800, 3345764771,
   3516065817, 3600352804, 4094571909, 275423344,
   430227734, 506948616, 659060556, 883997877,
   958139571, 1322822218, 1537002063, 1747873779,
   1955562222, 2024104815, 2227730452, 2361852424,
   2428436474, 2756734187, 3204031479, 3329325298]

def shaH0 : List Nat :=
  [1779033703, 3144134277, 1013904242, 2773480762,
   1359893119, 2600822924, 528734635, 1541459225]

/-- FIPS 180-4 padding: append `0x80`, zeros up to 56 mod 64, then the
bit length as eight big-endian bytes. -/
def padMessage (msg : List Nat) : List Nat :=
  let l := msg.length
  let k := (64 - ((l + 9) % 64)) % 64
  msg ++ [128] ++ List.replicate k 0
      ++ (List.range 8).map (fun i => ((8 * l) >>> (8 * (7 - i))) &&& 255)

/-- Big-endian 32-bit words of a byte list whose length is a multiple of 4. -/
def bytesToWords : List Nat → List Nat
  | b0 :: b1 :: b2 :: b3 :: rest =>
      (((b0 * 256 + b1) * 256 + b2) * 256 + b3) :: bytesToWords rest
  | _ => []

/-- Split a word list into chunks of 16 (one SHA-256 block each). -/
def chunk16 : List Nat → List (List Nat)
  | w0 :: w1 :: w2 :: w3 :: w4 :: w5 :: w6 :: w7 ::
    w8 :: w9 :: w10 :: w11 :: w12 :: w13 :: w14 :: w15 :: rest =>
      [w0, w1, w2, w3, w4, w5, w6, w7,
       w8, w9, w10, w11, w12, w13, w14, w15] :: chunk16 rest
  | _ => []

/-- Extend the 16 block words to the 64-entry message schedule. -/
def extendSchedule (ws : List Nat) : List Nat :=
  (List.range 48).foldl
    (fun acc _ =>
      let l := acc.length
      acc ++ [w32 (smallSigma1 (acc.getD (l - 2) 0) + acc.getD (l - 7) 0
                   + smallSigma0 (acc.getD (l - 15) 0) + acc.getD (l - 16) 0)])
    ws

/-- One application of the SHA-256 compression function. -/
def compressBlock (hs : List Nat) (block : List Nat) : List Nat :=
  let w := extendSchedule block
  let init := (hs.getD 0 0, hs.getD 1 0, hs.getD 2 0, hs.getD 3 0,
               hs.getD 4 0, hs.getD 5 0, hs.getD 6 0, hs.getD 7 0)
  let fin := (List.range 64).foldl
    (fun st i =>
      let (a, b, c, d, e, f, g, hh) := st
      let t1 := w32 (hh + bigSigma1 e + shaCh e f g + shaK.getD i 0 + w.getD i 0)
      let t2 := w32 (bigSigma0 a + shaMaj a b c)
      (w32 (t1 + t2), a, b, c, w32 (d + t1), e, f, g))
    init
  let (a, b, c, d, e, f, g, hh) := fin
  [w32 (hs.getD 0 0 + a), w32 (hs.getD 1 0 + b), w32 (hs.getD 2 0 + c),
   w32 (hs.getD 3 0 + d), w32 (hs.getD 4 0 + e), w32 (hs.getD 5 0 + f),
   w32 (hs.getD 6 0 + g), w32 (hs.getD 7 0 + hh)]

/-- SHA-256 digest of a byte list, as eight 32-bit words. -/
def sha256Words (msg : List Nat) : List Nat :=
  (chunk16 (bytesToWords (padMessage msg))).foldl compressBlock shaH0

def hexDigit (n : Nat) : Char :=
  "0123456789abcdef".data.getD n '0'

def toHex8 (n : Nat) : List Char :=
  (List.range 8).map (fun i => hexDigit ((n >>> (4 * (7 - i))) &&& 15))

/-- Lowercase hex rendering of the digest: Go's `fmt.Sprintf("%x", sum)`. -/
def sha256Hex (msg : List Nat) : String :=
  ⟨(sha256Words msg).foldr (fun wd acc => toHex8 wd ++ acc) []⟩

/-- Known-answer test: SHA-256 of the empty message. -/
theorem sha256Hex_empty :
    sha256Hex (strBytes "") =
      "e3b0c44298fc1c149afbf4c8996fb92427ae41e4649b934ca495991b7852b855" := by
  decide

/-- Known-answer test: SHA-256 of `"abc"`. -/
theorem sha256Hex_abc :
    sha256Hex (strBytes "abc") =
      "ba7816bf8f01cfea414140de5dae2223b00361a396177a9cb410ff61f20015ad" := by
  decide

/-! ## db.GetContent

`GetContent` executes a SQL string and returns rows of string-rendered cells
plus one `table.Column` per result column, with the title upper-cased and the
width set to 20.  The SQL driver is an external collaborator: it is passed in
as `exec`, already delivering the string-normalised cells (the `nil → ""`,
`[]byte → string`, default-rendering switch acts on driver values, which the
embedding does not re-model). -/

def getContent (exec : String → Except String (List Row × List String))
    (sqlQuery : String) : Except String (List Row × List Column) :=
  match exec sqlQuery with
  | .error e => .error e
  | .ok (rows, colNames) =>
      .ok (rows, colNames.map (fun name => { title := goToUpper name, width := 20 }))

/-! ## ui: pivot view and row identity hashing -/

/-- Model of `ToVerticalView`: converts a horizontal row to a vertical
column view, using the first row only. -/
def toVerticalView (rows : List Row) (cols : List Column) :
    List Row × List Column :=
  match rows with
  | [] => (rows, cols)
  | row :: _ =>
      let verticalRows := cols.enum.map
        (fun p => [p.2.title, if p.1 < row.length then row.getD p.1 "" else ""])
      (verticalRows,
       [{ title := "column", width := 30 }, { title := "val", width := 50 }])

/-- Row digest as computed inside `SelectRowByHash`:
`fmt.Sprintf("%x", sha256.Sum256([]byte(strings.Join(row, "|"))))`. -/
def rowHashSelect (row : Row) : String :=
  sha256Hex (strBytes (joinCells row))

/-- Row digest as computed at the two `enter`-key sites of `Update`
(the filter-commit branch and the row-confirmation branch); textually the
same expression as in `SelectRowByHash`. -/
def rowHashEnter (row : Row) : String :=
  sha256Hex (strBytes (joinCells row))

/-! ## config: catalog and session store

The embedded SQLite store is modelled as explicit lists of rows.  The
`instance` table has `PRIMARY KEY(uid, id_query)`, the `config` table has
`PRIMARY KEY(id_item, uid, var)`; `INSERT OR REPLACE` deletes any row with
the same primary key and inserts the new one. -/

structure InstanceRow where
  uid : String
  idQuery : Nat
  hash : String
  filter : String
deriving DecidableEq, Repr

structure ConfigRow where
  idItem : Nat
  uid : String
  var : String
  val : String
deriving DecidableEq, Repr

structure Item where
  id : Nat
  idDB : Nat
  name : String
deriving DecidableEq, Repr

structure QueryRow where
  id : Nat
  name : String
  query : String
  config : Option String
  height : Option Nat
deriving DecidableEq, Repr

/-- Model of `INSERT OR REPLACE INTO instance`: replace-on-conflict on the
composite primary key `(uid, id_query)`. -/
def upsertInstance (tbl : List InstanceRow) (r : InstanceRow) : List InstanceRow :=
  tbl.filter (fun x => !(x.uid == r.uid && x.idQuery == r.idQuery)) ++ [r]

/-- Model of `INSERT OR REPLACE INTO config`: replace-on-conflict on the
composite primary key `(id_item, uid, var)`. -/
def upsertConfig (tbl : List ConfigRow) (r : ConfigRow) : List ConfigRow :=
  tbl.filter (fun x => !(x.idItem == r.idItem && x.uid == r.uid && x.var == r.var)) ++ [r]

def lowerHexByte (b : Nat) : List Char :=
  [hexDigit (b / 16), hexDigit (b % 16)]

/-- Model of SQLite `lower(hex(blob))` over a byte list. -/
def lowerHexBytes (bs : List Nat) : List Char :=
  bs.foldr (fun b acc => lowerHexByte b ++ acc) []

/-- Model of `generateUUID`: render `randomblob(16)` as lowercase hex and
regroup it as `hex[0:8]-hex[8:12]-hex[12:16]-hex[16:20]-hex[20:32]`.  The
random blob drawn from SQLite is passed in explicitly. -/
def generateUUID (blob : List Nat) : String :=
  let hx := lowerHexBytes blob
  (⟨hx.take 8⟩ : String) ++ "-" ++ (⟨(hx.drop 8).take 4⟩ : String) ++ "-"
    ++ (⟨(hx.drop 12).take 4⟩ : String) ++ "-" ++ (⟨(hx.drop 16).take 4⟩ : String)
    ++ "-" ++ (⟨(hx.drop 20).take 12⟩ : String)

/-- Model of `SaveInstance`: allocate a token when the provided one is empty,
then `INSERT OR REPLACE` the `(uid, id_query)` row.  Returns the effective
token and the updated `instance` table. -/
def saveInstance (blob : List Nat) (tbl : List InstanceRow) (idQuery : Nat)
    (hash providedUID filter : String) : String × List InstanceRow :=
  let uid := if providedUID = "" then generateUUID blob else providedUID
  (uid, upsertInstance tbl { uid := uid, idQuery := idQuery, hash := hash, filter := filter })

/-- Lookup of the stored digest: `GetHashByUID`. -/
def getHashByUID (tbl : List InstanceRow) (uid : String) (idQuery : Nat) :
    Except String String :=
  match tbl.find? (fun r => r.uid == uid && r.idQuery == idQuery) with
  | some r => .ok r.hash
  | none => .error "sql: no rows in result set"

/-- Lookup of the stored filter text: `GetFilterByUID`. -/
def getFilterByUID (tbl : List InstanceRow) (uid : String) (idQuery : Nat) :
    Except String String :=
  match tbl.find? (fun r => r.uid == uid && r.idQuery == idQuery) with
  | some r => .ok r.filter
  | none => .error "sql: no rows in result set"

/-- Parsed shape of the serialized display configuration. -/
structure QueryConfig where
  widths : List (String × Nat)
  aliases : List (String × String)
  height : Nat
deriving DecidableEq, Repr

/-- Model of `GetQueryConfig`.  `parse` stands for `json.Unmarshal` into
`QueryConfig` (an external library call); the scanned `config` column is an
`sql.NullString` modelled as `Option String`, and the height is read through
`COALESCE(height, 10)`. -/
def getQueryConfig (parse : String → Except String QueryConfig)
    (queries : List QueryRow) (sqlName : String) :
    Except String (List (String × Nat) × List (String × String) × Nat) :=
  match queries.find? (fun q => q.name == sqlName) with
  | none => .error "sql: no rows in result set"
  | some row =>
      let tableHeight := row.height.getD 10
      match row.config with
      | none => .ok ([], [], tableHeight)
      | some s =>
          if s = "" then .ok ([], [], tableHeight)
          else
            match parse s with
            | .error e => .error e
            | .ok cfg =>
                .ok (cfg.widths, cfg.aliases,
                     if cfg.height = 0 then tableHeight else cfg.height)

/-- Model of `InsertItemIfNotExists`: insert only when no item with that name
exists; `AUTOINCREMENT` allocates one more than the current maximum id. -/
def insertItemIfNotExists (items : List Item) (name : String) (idDB : Nat) :
    List Item :=
  if items.any (fun it => it.name == name) then items
  else items ++ [{ id := (items.map Item.id).foldl max 0 + 1, idDB := idDB, name := name }]

/-- Model of `GetItemID`: `QueryRow` scans the first matching row, failing
with `sql.ErrNoRows` when there is none. -/
def getItemID (items : List Item) (name : String) : Except String Nat :=
  match items.find? (fun it => it.name == name) with
  | some it => .ok it.id
  | none => .error "sql: no rows in result set"

/-- Model of `InsertConfig`: for each column index inside the row, upsert
the cell value under the alias of the upper-cased column name, skipping
columns without an alias entry. -/
def insertConfig (idItem : Nat) (uid : String) (row : List String)
    (cols : List String) (aliases : List (String × String))
    (tbl : List ConfigRow) : List ConfigRow :=
  cols.enum.foldl
    (fun acc p =>
      if p.1 < row.length then
        match lookupS aliases (goToUpper p.2) with
        | some a =>
            upsertConfig acc
              { idItem := idItem, uid := uid, var := a, val := row.getD p.1 "" }
        | none => acc
      else acc)
    tbl

/-- Model of `SaveConfigFromTable`: ensure the item exists, resolve its id,
then run the same per-column upsert loop over `table.Column` titles.
Returns the updated `items` and `config` tables. -/
def saveConfigFromTable (items : List Item) (cfgTbl : List ConfigRow)
    (itemName : String) (idDB : Nat) (uid : String) (row : List String)
    (cols : List Column) (aliases : List (String × String)) :
    Except String (List Item × List ConfigRow) :=
  let items2 := insertItemIfNotExists items itemName idDB
  match getItemID items2 itemName with
  | .error e => .error e
  | .ok idItem =>
      .ok (items2,
        cols.enum.foldl
          (fun acc p =>
            if p.1 < row.length then
              match lookupS aliases (goToUpper p.2.title) with
              | some a =>
                  upsertConfig acc
                    { idItem := idItem, uid := uid, var := a, val := row.getD p.1 "" }
              | none => acc
            else acc)
          cfgTbl)

/-! ## ui: FilterContent

`FilterContent` normalises the raw filter text, executes either the base
query or the composed sub-select, overlays widths/aliases from the stored
query configuration and optionally pivots to the vertical view.  It is split
here into the fetch step (lines computing `filter` and calling
`db.GetContent`) and the presentation step (the column loop), exactly as the
data flows in the source. -/

/-- Fetch step of `FilterContent`: trim surrounding whitespace and a leading
`"WHERE"`, then execute the base query when the remaining predicate is
empty, and `SELECT * FROM (base) WHERE predicate` otherwise. -/
def fetchContent (exec : String → Except String (List Row × List String))
    (sqlQuery rawFilter : String) : Except String (List Row × List Column) :=
  let f1 := goTrimSpace rawFilter
  let f2 := trimLeadingWHERE f1
  let f := goTrimSpace f2
  if f = "" then getContent exec sqlQuery
  else getContent exec ("SELECT * FROM (" ++ sqlQuery ++ ") WHERE " ++ f)

/-- Presentation step of `FilterContent`: per column, resolve the alias of
the upper-cased title, then set the width stored under the resolved name,
defaulting to 20. -/
def presentCols (widths : List (String × Nat)) (aliases : List (String × String))
    (cols : List Column) : List Column :=
  cols.map (fun c =>
    let colTitle := goToUpper c.title
    let originalName :=
      match lookupS aliases colTitle with
      | some a => a
      | none => colTitle
    match lookupN widths originalName with
    | some w => { c with width := w }
    | none => { c with width := 20 })

/-- Model of `Model.FilterContent`.  `cfg` is the result of the
`config.GetQueryConfig(m.sqlName)` call; on a config error the maps are
replaced by empty ones.  When `view = "c"` the result is pivoted by
`ToVerticalView`. -/
def filterContent (exec : String → Except String (List Row × List String))
    (cfg : Except String (List (String × Nat) × List (String × String) × Nat))
    (sqlQuery view rawFilter : String) : Except String (List Row × List Column) :=
  let wa :=
    match cfg with
    | .error _ => (([] : List (String × Nat)), ([] : List (String × String)))
    | .ok (w, a, _) => (w, a)
  match fetchContent exec sqlQuery rawFilter with
  | .error e => .error e
  | .ok (rows, cols) =>
      let cols2 := presentCols wa.1 wa.2 cols
      if view = "c" then
        let rc := toVerticalView rows cols2
        .ok (rc.1, rc.2)
      else .ok (rows, cols2)

/-! ## ui: interaction controller

The bubbletea widgets are external collaborators; only the state that
`Update` reads and writes is modelled (`Rows`, `Columns`, the cursor,
focus, the text-input value).  Key events arrive as their `msg.String()`
form; the widget fall-through updates (`m.table.Update(msg)`,
`m.textInput.Update(msg)`) and the commands they return are abstracted as
environment functions. -/

structure TableModel where
  rows : List Row
  cols : List Column
  cursor : Nat
  focused : Bool
deriving DecidableEq, Repr

structure TextInputModel where
  value : String
  focused : Bool
deriving DecidableEq, Repr

structure Model where
  table : TableModel
  textInput : TextInputModel
  itemName : String
  sqlName : String
  sqlQuery : String
  idDB : Nat
  idQuery : Nat
  height : Nat
  aliases : List (String × String)
  initialFilter : String
  uid : String
  filter : String
  view : String
deriving DecidableEq, Repr

/-- Commands handed back to the bubbletea loop.  The source only ever
returns `tea.Quit` or `tea.Batch` of `tea.Printf` messages, so a batch is
modelled as its list of printed messages (`tea.Batch()` is `batch []`). -/
inductive Cmd where
  | quit
  | batch (prints : List String)
deriving DecidableEq, Repr

/-- Does a command contain `tea.Quit` (terminating the loop)? -/
def containsQuit : Cmd → Bool
  | .quit => true
  | .batch _ => false

/-- External collaborators of `Update`: the SQL driver, the stored query
configuration, the SQLite random blob drawn by `generateUUID`, and the
opaque widget updates with the command they produce. -/
structure Env where
  exec : String → Except String (List Row × List String)
  cfg : Except String (List (String × Nat) × List (String × String) × Nat)
  blob : List Nat
  tableUpd : TableModel → String → TableModel
  inputUpd : TextInputModel → String → TextInputModel
  widgetCmd : Cmd

/-- Persistent store state touched by `Update`. -/
structure Stores where
  items : List Item
  configTbl : List ConfigRow
  instTbl : List InstanceRow
deriving Repr

/-- Model of `SelectRowByHash`: move the cursor to the first row whose
digest equals the target, leaving the model unchanged when none matches. -/
def selectRowByHash (m : Model) (targetHash : String) : Model :=
  match m.table.rows.enum.find? (fun p => rowHashSelect p.2 == targetHash) with
  | some p => { m with table := { m.table with cursor := p.1 } }
  | none => m

/-- Model of `Model.Update` restricted to key events.  `ctrl+c` quits;
`enter` commits the filter (when the text input is focused) or confirms the
selected row (when the table is focused); `tab`/`esc` toggle focus and then,
like every unhandled key, fall through to the widget updates. -/
def update (env : Env) (st : Stores) (m : Model) (key : String) :
    Model × Stores × Cmd :=
  match key with
  | "ctrl+c" => (m, st, Cmd.quit)
  | "enter" =>
      if m.textInput.focused then
        let filter := m.textInput.value
        match filterContent env.exec env.cfg m.sqlQuery m.view filter with
        | .error e =>
            (m, st, Cmd.batch ["\nError filtering: " ++ e ++ "\n"])
        | .ok (rows, cols) =>
            let t := { m.table with rows := rows, cols := cols }
            let row := t.rows.getD t.cursor []
            let hash := rowHashEnter row
            let r := saveInstance env.blob st.instTbl m.idQuery hash m.uid filter
            ({ m with table := t }, { st with instTbl := r.2 }, Cmd.batch [])
      else
        let row := m.table.rows.getD m.table.cursor []
        let hash := rowHashEnter row
        let cols := m.table.cols
        match saveConfigFromTable st.items st.configTbl m.itemName m.idDB m.uid
            row cols m.aliases with
        | .error e =>
            (m, st, Cmd.batch ["\nError saving to config: " ++ e ++ "\n"])
        | .ok (items2, cfg2) =>
            let r := saveInstance env.blob st.instTbl m.idQuery hash m.uid
              m.textInput.value
            (m, { st with items := items2, configTbl := cfg2, instTbl := r.2 },
             Cmd.batch [])
  | k =>
      let m1 :=
        if k = "tab" then
          if m.table.focused then
            { m with table := { m.table with focused := false },
                     textInput := { m.textInput with focused := true } }
          else
            { m with textInput := { m.textInput with focused := false },
                     table := { m.table with focused := true } }
        else if k = "esc" then
          if m.table.focused then
            { m with table := { m.table with focused := false } }
          else
            { m with table := { m.table with focused := true } }
        else m
      let m2 := { m1 with table := env.tableUpd m1.table k,
                          textInput := env.inputUpd m1.textInput k }
      let m3 :=
        if m2.textInput.focused then { m2 with filter := m2.textInput.value }
        else m2
      (m3, st, env.widgetCmd)

/-! ## cmd/tel/main.go: the startup display pipeline -/

/-- Model of `applyColumnWidths` from `cmd/tel/main.go`: width lookup by the
column title as returned by `GetContent`; the `aliases` parameter is
received but never consulted. -/
def applyColumnWidths (columns : List Column) (widths : List (String × Nat))
    (aliases : List (String × String)) : List Column :=
  columns.map (fun c =>
    match lookupN widths c.title with
    | some w => { c with width := w }
    | none => { c with width := 20 })

/-- Model of the startup fetch-and-display steps of `main` (lines running
`db.GetContent`, the empty-result exit, and `applyColumnWidths`). -/
def startupDisplay (exec : String → Except String (List Row × List String))
    (widths : List (String × Nat)) (aliases : List (String × String))
    (sqlQuery : String) : Except String (List Row × List Column) :=
  match getContent exec sqlQuery with
  | .error e => .error e
  | .ok (rows, columns) =>
      if rows.length = 0 ∨ columns.length = 0 then
        .error "No rows or columns retrieved from database"
      else .ok (rows, applyColumnWidths columns widths aliases)

/-! ## Claims -/

/-- C1: for every base query string and raw filter string, the Filter
Composer trims surrounding whitespace and an optional leading `"WHERE"` from
the filter; when the remaining predicate is non-empty it executes the
derived query `SELECT * FROM (base query) WHERE predicate`, and when it is
empty it executes the base query unchanged. -/
theorem C1_filter_composer_contract
    (exec : String → Except String (List Row × List String))
    (sqlQuery rawFilter : String) :
    (goTrimSpace (trimLeadingWHERE (goTrimSpace rawFilter)) ≠ "" →
      fetchContent exec sqlQuery rawFilter =
        getContent exec ("SELECT * FROM (" ++ sqlQuery ++ ") WHERE "
          ++ goTrimSpace (trimLeadingWHERE (goTrimSpace rawFilter))))
    ∧ (goTrimSpace (trimLeadingWHERE (goTrimSpace rawFilter)) = "" →
      fetchContent exec sqlQuery rawFilter = getContent exec sqlQuery) := by
  constructor <;> intro h <;> simp [fetchContent, h]

/-- Concrete driver used by the C1 witness. -/
def execC1 : String → Except String (List Row × List String) :=
  fun q => .ok ([["1"]], [q])

/-- Witness for C1 at the spec's own example: filter `"status = 'active'"`
on base query `SELECT * FROM users` executes
`SELECT * FROM (SELECT * FROM users) WHERE status = 'active'`. -/
theorem C1_filter_composer_contract_witness :
    fetchContent execC1 "SELECT * FROM users" "status = 'active'" =
      getContent execC1
        "SELECT * FROM (SELECT * FROM users) WHERE status = 'active'" :=
  (C1_filter_composer_contract execC1 "SELECT * FROM users"
    "status = 'active'").1 (by decide)

/-- C2: the Row Identity Hasher is deterministic: the digest computed in
`SelectRowByHash` and the digest computed in the enter-key handler agree on
every row, repeated invocations agree, and identical cell sequences in
identical order always produce identical digests. -/
theorem C2_row_hasher_deterministic :
    (∀ row : Row, rowHashSelect row = rowHashSelect row)
    ∧ (∀ row : Row, rowHashSelect row = rowHashEnter row)
    ∧ (∀ r1 r2 : Row, r1 = r2 → rowHashSelect r1 = rowHashEnter r2) :=
  ⟨fun _ => rfl, fun _ => rfl, fun r1 r2 h => h ▸ rfl⟩

/-- Witness for C2 at a concrete row: the two call sites agree on
`["a", "b"]`. -/
theorem C2_row_hasher_deterministic_witness :
    rowHashSelect ["a", "b"] = rowHashEnter ["a", "b"] :=
  C2_row_hasher_deterministic.2.2 ["a", "b"] ["a", "b"] rfl

/-- C9: the pivot transformation uses only the first row, producing exactly
one two-cell output row `[column title, first-row value or ""]` per original
column, under the two fixed columns `column` and `val`; rows other than the
first never influence the output. -/
theorem C9_pivot_first_row_only (rows : List Row) (cols : List Column)
    (hr : rows ≠ []) (hc : cols ≠ []) :
    toVerticalView rows cols =
      (cols.enum.map (fun p => [p.2.title,
          if p.1 < (rows.headD []).length then (rows.headD []).getD p.1 "" else ""]),
       [{ title := "column", width := 30 }, { title := "val", width := 50 }])
    ∧ (toVerticalView rows cols).1.length = cols.length
    ∧ (∀ rest : List Row,
        toVerticalView (rows.headD [] :: rest) cols = toVerticalView rows cols) := by
  match rows with
  | row :: rs =>
      refine ⟨rfl, ?_, fun rest => rfl⟩
      simp [toVerticalView, List.enum_length]

/-- Witness for C9 on a concrete two-column, two-row table: the second row
`["zzz", "zzz"]` leaves no trace in the output. -/
theorem C9_pivot_first_row_only_witness :
    toVerticalView [["a"], ["zzz", "zzz"]]
        [{ title := "C", width := 20 }, { title := "D", width := 20 }] =
      ([["C", "a"], ["D", ""]],
       [{ title := "column", width := 30 }, { title := "val", width := 50 }])
    ∧ (toVerticalView [["a"], ["zzz", "zzz"]]
        [{ title := "C", width := 20 }, { title := "D", width := 20 }]).1.length = 2 :=
  ⟨by decide,
   ((C9_pivot_first_row_only [["a"], ["zzz", "zzz"]]
      [{ title := "C", width := 20 }, { title := "D", width := 20 }]
      (by decide) (by decide)).2.1)⟩

/-- Replace-on-conflict leaves exactly one row for the written key. -/
theorem filter_upsertInstance (tbl : List InstanceRow) (r : InstanceRow) :
    (upsertInstance tbl r).filter
        (fun x => x.uid == r.uid && x.idQuery == r.idQuery) = [r] := by
  unfold upsertInstance
  rw [List.filter_append, List.filter_filter]
  simp

/-- C3: calling `SaveInstance` twice with the same non-empty token and query
id returns that token both times and leaves exactly one `instance` row for
the key `(token, query id)`, holding the second call's digest and filter
text. -/
theorem C3_save_instance_upsert (tbl : List InstanceRow) (q : Nat)
    (d1 f1 d2 f2 t : String) (blob1 blob2 : List Nat) (ht : t ≠ "") :
    (saveInstance blob1 tbl q d1 t f1).1 = t
    ∧ (saveInstance blob2 (saveInstance blob1 tbl q d1 t f1).2 q d2 t f2).1 = t
    ∧ (saveInstance blob2 (saveInstance blob1 tbl q d1 t f1).2 q d2 t f2).2.filter
        (fun r => r.uid == t && r.idQuery == q)
      = [{ uid := t, idQuery := q, hash := d2, filter := f2 }] := by
  refine ⟨by simp [saveInstance, ht], by simp [saveInstance, ht], ?_⟩
  simp only [saveInstance, ht, if_neg, ite_false]
  exact filter_upsertInstance _ { uid := t, idQuery := q, hash := d2, filter := f2 }

/-- Witness for C3: two saves under the explicit token `"tok"` and query id
7 leave the single row holding the second digest and filter. -/
theorem C3_save_instance_upsert_witness :
    ("tok" : String) ≠ ""
    ∧ (saveInstance [] (saveInstance [] [] 7 "d1" "tok" "f1").2 7 "d2" "tok" "f2").2.filter
        (fun r => r.uid == "tok" && r.idQuery == 7)
      = [{ uid := "tok", idQuery := 7, hash := "d2", filter := "f2" }] :=
  ⟨by decide, (C3_save_instance_upsert [] 7 "d1" "f1" "d2" "f2" "tok" [] []
    (by decide)).2.2⟩

/-- C7: for every query name present in the queries table, `GetQueryConfig`
surfaces the parse error of a non-empty malformed config text to the caller,
and returns empty widths and aliases maps with the stored default height
when the config field is NULL or the empty string. -/
theorem C7_config_parse_policy (parse : String → Except String QueryConfig)
    (queries : List QueryRow) (sqlName : String) (row : QueryRow)
    (hfind : queries.find? (fun q => q.name == sqlName) = some row) :
    ((row.config = none ∨ row.config = some "") →
      getQueryConfig parse queries sqlName = .ok ([], [], row.height.getD 10))
    ∧ (∀ s e, row.config = some s → s ≠ "" → parse s = .error e →
      getQueryConfig parse queries sqlName = .error e) := by
  constructor
  · rintro (h | h) <;> simp [getQueryConfig, hfind, h]
  · intro s e hs hne hp
    simp [getQueryConfig, hfind, hs, hne, hp]

/-- Concrete `json.Unmarshal` stand-in used by the C7 witness: it rejects
the text `"not json"` and accepts everything else. -/
def parseC7 : String → Except String QueryConfig :=
  fun s =>
    if s = "not json" then .error "invalid character"
    else .ok { widths := [], aliases := [], height := 0 }

/-- Concrete queries table used by the C7 witness. -/
def queriesC7 : List QueryRow :=
  [{ id := 1, name := "good", query := "SELECT 1", config := none, height := some 15 },
   { id := 2, name := "bad", query := "SELECT 2", config := some "not json", height := none }]

/-- Witness for C7: the malformed stored config of query `"bad"` surfaces
the parser's error, and the NULL config of query `"good"` yields empty maps
with the stored height 15. -/
theorem C7_config_parse_policy_witness :
    getQueryConfig parseC7 queriesC7 "bad" = .error "invalid character"
    ∧ getQueryConfig parseC7 queriesC7 "good" = .ok ([], [], 15) :=
  ⟨(C7_config_parse_policy parseC7 queriesC7 "bad"
      { id := 2, name := "bad", query := "SELECT 2", config := some "not json",
        height := none } (by decide)).2
    "not json" "invalid character" rfl (by decide) rfl,
   (C7_config_parse_policy parseC7 queriesC7 "good"
      { id := 1, name := "good", query := "SELECT 1", config := none,
        height := some 15 } (by decide)).1 (Or.inl rfl)⟩

/-- C8: when the commit key is pressed while the filter input is focused and
the filter pipeline fails, `Update` returns the model and stores unchanged
(so the displayed rows and columns are those of the model before the
keypress), surfaces the error only as a printed message, and does not quit
the loop. -/
theorem C8_filter_error_preserves_display (env : Env) (st : Stores)
    (m : Model) (e : String) (hfoc : m.textInput.focused = true)
    (herr : filterContent env.exec env.cfg m.sqlQuery m.view m.textInput.value
      = .error e) :
    update env st m "enter" = (m, st, Cmd.batch ["\nError filtering: " ++ e ++ "\n"])
    ∧ (update env st m "enter").1.table.rows = m.table.rows
    ∧ (update env st m "enter").1.table.cols = m.table.cols
    ∧ containsQuit (update env st m "enter").2.2 = false := by
  have h1 : update env st m "enter"
      = (m, st, Cmd.batch ["\nError filtering: " ++ e ++ "\n"]) := by
    simp [update, hfoc, herr]
  exact ⟨h1, by rw [h1], by rw [h1], by rw [h1]; rfl⟩

/-- Concrete environment used by the C8 witness: the driver rejects every
query, so the filter pipeline fails. -/
def envC8 : Env :=
  { exec := fun _ => .error "boom", cfg := .ok ([], [], 10), blob := [],
    tableUpd := fun t _ => t, inputUpd := fun ti _ => ti,
    widgetCmd := Cmd.batch [] }

/-- Concrete model used by the C8 witness: filter input focused, one
displayed row. -/
def modelC8 : Model :=
  { table := { rows := [["r"]], cols := [{ title := "A", width := 20 }],
               cursor := 0, focused := false },
    textInput := { value := "x = 1", focused := true },
    itemName := "it", sqlName := "sq", sqlQuery := "SELECT 1", idDB := 1,
    idQuery := 2, height := 10, aliases := [], initialFilter := "", uid := "",
    filter := "", view := "" }

/-- Witness for C8: with the failing driver, pressing enter leaves the
displayed table untouched and reports the error as a transient message. -/
theorem C8_filter_error_preserves_display_witness :
    update envC8 { items := [], configTbl := [], instTbl := [] } modelC8 "enter"
      = (modelC8, { items := [], configTbl := [], instTbl := [] },
         Cmd.batch ["\nError filtering: boom\n"])
    ∧ containsQuit (update envC8 { items := [], configTbl := [], instTbl := [] }
        modelC8 "enter").2.2 = false := by
  have h := C8_filter_error_preserves_display envC8
    { items := [], configTbl := [], instTbl := [] } modelC8 "boom" rfl (by decide)
  exact ⟨h.1, h.2.2.2⟩

/-- Recogniser for the characters `0-9a-f`. -/
def isLowerHexDigit (c : Char) : Bool :=
  (decide (48 ≤ c.toNat) && decide (c.toNat ≤ 57))
    || (decide (97 ≤ c.toNat) && decide (c.toNat ≤ 102))

theorem hexDigit_isLowerHex (n : Nat) : isLowerHexDigit (hexDigit n) = true := by
  rcases Nat.lt_or_ge n 16 with h | h
  · interval_cases n <;> decide
  · unfold hexDigit
    rw [List.getD_eq_default]
    · decide
    · exact le_trans (le_of_eq (by decide)) h

theorem lowerHexBytes_cons (b : Nat) (bs : List Nat) :
    lowerHexBytes (b :: bs) = lowerHexByte b ++ lowerHexBytes bs := rfl

theorem mem_lowerHexBytes {c : Char} {bs : List Nat}
    (h : c ∈ lowerHexBytes bs) : isLowerHexDigit c = true := by
  induction bs with
  | nil => simp [lowerHexBytes] at h
  | cons b bs ih =>
      rw [lowerHexBytes_cons] at h
      rcases List.mem_append.1 h with h2 | h2
      · simp [lowerHexByte] at h2
        rcases h2 with rfl | rfl <;> exact hexDigit_isLowerHex _
      · exact ih h2

theorem length_lowerHexBytes (bs : List Nat) :
    (lowerHexBytes bs).length = 2 * bs.length := by
  induction bs with
  | nil => rfl
  | cons b bs ih =>
      rw [lowerHexBytes_cons, List.length_append, ih]
      simp [lowerHexByte]
      omega

theorem data_mk (l : List Char) : (⟨l⟩ : String).data = l := rfl

theorem data_dash : ("-" : String).data = ['-'] := rfl

/-- C6: a `SaveInstance` call with an empty provided token returns a token
derived from the 16 random bytes in the canonical grouped hex form: five
dash-separated groups of 8, 4, 4, 4 and 12 lowercase hex digits. -/
theorem C6_generated_token_format (tbl : List InstanceRow) (q : Nat)
    (d f : String) (blob : List Nat) (hlen : blob.length = 16)
    (hbytes : ∀ b ∈ blob, b < 256) :
    ∃ g1 g2 g3 g4 g5 : List Char,
      (saveInstance blob tbl q d "" f).1.data
          = g1 ++ '-' :: (g2 ++ '-' :: (g3 ++ '-' :: (g4 ++ '-' :: g5)))
      ∧ g1.length = 8 ∧ g2.length = 4 ∧ g3.length = 4 ∧ g4.length = 4
      ∧ g5.length = 12
      ∧ (∀ c : Char, (c ∈ g1 ∨ c ∈ g2 ∨ c ∈ g3 ∨ c ∈ g4 ∨ c ∈ g5) →
          isLowerHexDigit c = true) := by
  have huid : (saveInstance blob tbl q d "" f).1 = generateUUID blob := by
    simp [saveInstance]
  have hx : (lowerHexBytes blob).length = 32 := by
    rw [length_lowerHexBytes, hlen]
  refine ⟨(lowerHexBytes blob).take 8, ((lowerHexBytes blob).drop 8).take 4,
    ((lowerHexBytes blob).drop 12).take 4, ((lowerHexBytes blob).drop 16).take 4,
    ((lowerHexBytes blob).drop 20).take 12, ?_, ?_, ?_, ?_, ?_, ?_, ?_⟩
  · rw [huid]
    unfold generateUUID
    simp only [String.data_append, data_mk, data_dash, List.append_assoc,
      List.singleton_append, List.cons_append, List.nil_append]
  · rw [List.length_take, hx]; decide
  · rw [List.length_take, List.length_drop, hx]; decide
  · rw [List.length_take, List.length_drop, hx]; decide
  · rw [List.length_take, List.length_drop, hx]; decide
  · rw [List.length_take, List.length_drop, hx]; decide
  · intro c hc
    rcases hc with h2 | h2 | h2 | h2 | h2
    · exact mem_lowerHexBytes (List.mem_of_mem_take h2)
    all_goals exact mem_lowerHexBytes (List.mem_of_mem_drop (List.mem_of_mem_take h2))

/-- Sixteen concrete random bytes used by the C6 witness. -/
def blobC6 : List Nat :=
  [171, 205, 18, 52, 86, 120, 154, 188, 222, 240, 1, 35, 69, 103, 137, 239]

/-- Witness for C6 at a concrete 16-byte blob. -/
theorem C6_generated_token_format_witness :
    (blobC6.length = 16 ∧ ∀ b ∈ blobC6, b < 256)
    ∧ ∃ g1 g2 g3 g4 g5 : List Char,
      (saveInstance blobC6 [] 3 "d" "" "f").1.data
          = g1 ++ '-' :: (g2 ++ '-' :: (g3 ++ '-' :: (g4 ++ '-' :: g5)))
      ∧ g1.length = 8 ∧ g2.length = 4 ∧ g3.length = 4 ∧ g4.length = 4
      ∧ g5.length = 12
      ∧ (∀ c : Char, (c ∈ g1 ∨ c ∈ g2 ∨ c ∈ g3 ∨ c ∈ g4 ∨ c ∈ g5) →
          isLowerHexDigit c = true) :=
  ⟨⟨by decide, by decide⟩,
   C6_generated_token_format [] 3 "d" "f" blobC6 (by decide) (by decide)⟩

/-- A fold that upserts on `some` and skips on `none` is the upsert fold of
the `filterMap`. -/
theorem foldl_upsert_filterMap {α : Type} (f : α → Option ConfigRow) :
    ∀ (l : List α) (acc : List ConfigRow),
      l.foldl (fun acc x =>
        match f x with
        | some r => upsertConfig acc r
        | none => acc) acc
      = (l.filterMap f).foldl upsertConfig acc := by
  intro l
  induction l with
  | nil => intro acc; rfl
  | cons x xs ih =>
      intro acc
      rw [List.foldl_cons, List.filterMap_cons]
      cases hfx : f x with
      | none => simp only [hfx]; rw [ih]
      | some r => simp only [hfx]; rw [ih, List.foldl_cons]

/-- After `InsertItemIfNotExists`, `GetItemID` succeeds. -/
theorem getItemID_after_insert (items : List Item) (name : String) (idDB : Nat) :
    ∃ i, getItemID (insertItemIfNotExists items name idDB) name = .ok i := by
  unfold insertItemIfNotExists getItemID
  by_cases h : items.any (fun it => it.name == name)
  · rw [if_pos h]
    obtain ⟨it, hmem, hname⟩ := List.any_eq_true.1 h
    have hs : (items.find? (fun it => it.name == name)).isSome =
        true := List.find?_isSome.2 ⟨it, hmem, hname⟩
    cases hf : items.find? (fun it => it.name == name) with
    | some it2 => exact ⟨it2.id, rfl⟩
    | none => rw [hf] at hs; simp at hs
  · rw [if_neg h]
    have hnone : items.find? (fun it => it.name == name) = none := by
      rw [List.find?_eq_none]
      intro x hx
      exact List.any_eq_false.1 (Bool.eq_false_iff.2 h) x hx
    rw [List.find?_append, hnone]
    simp [List.find?]

/-- Modelled on the claim's wording: the Column Config rows persisted on row
confirmation are exactly those of columns whose upper-cased title is a key
of the aliases map, stored under the alias string with the row's cell value
at that column index. -/
def configWritesSpec (idItem : Nat) (uid : String) (row : List String)
    (cols : List Column) (aliases : List (String × String)) : List ConfigRow :=
  cols.enum.filterMap (fun p =>
    if p.1 < row.length then
      (lookupS aliases (goToUpper p.2.title)).map
        (fun a => { idItem := idItem, uid := uid, var := a, val := row.getD p.1 "" })
    else none)

/-- C10: on row confirmation, only columns whose upper-cased title is a key
of the aliases map are persisted, each under the alias string rather than
the column's own name; columns without an alias entry write no Column
Config row at all, silently. -/
theorem C10_save_config_alias_gating (items : List Item) (cfgTbl : List ConfigRow)
    (itemName : String) (idDB : Nat) (uid : String) (row : List String)
    (cols : List Column) (aliases : List (String × String)) :
    ∃ idItem : Nat,
      getItemID (insertItemIfNotExists items itemName idDB) itemName = .ok idItem
      ∧ saveConfigFromTable items cfgTbl itemName idDB uid row cols aliases
          = .ok (insertItemIfNotExists items itemName idDB,
                 (configWritesSpec idItem uid row cols aliases).foldl upsertConfig cfgTbl)
      ∧ ((∀ c ∈ cols, lookupS aliases (goToUpper c.title) = none) →
            saveConfigFromTable items cfgTbl itemName idDB uid row cols aliases
              = .ok (insertItemIfNotExists items itemName idDB, cfgTbl)) := by
  obtain ⟨i, hi⟩ := getItemID_after_insert items itemName idDB
  have hmain : saveConfigFromTable items cfgTbl itemName idDB uid row cols aliases
      = .ok (insertItemIfNotExists items itemName idDB,
             (configWritesSpec i uid row cols aliases).foldl upsertConfig cfgTbl) := by
    simp only [saveConfigFromTable, hi]
    unfold configWritesSpec
    rw [← foldl_upsert_filterMap]
    congr 2
    apply List.foldl_ext
    intro acc p hp
    by_cases hlt : p.1 < row.length
    · cases hl : lookupS aliases (goToUpper p.2.title) <;> simp [hlt, hl]
    · simp [hlt]
  refine ⟨i, hi, hmain, ?_⟩
  intro hnone
  have hspec : configWritesSpec i uid row cols aliases = [] := by
    unfold configWritesSpec
    rw [List.filterMap_eq_nil_iff]
    intro p hp
    obtain ⟨idx, c⟩ := p
    have hmem : c ∈ cols := by
      have h3 := List.mem_enumFrom hp
      rw [h3.2.2]
      exact List.getElem_mem _
    by_cases hlt : idx < row.length
    · simp [hlt, hnone c hmem]
    · simp [hlt]
  rw [hmain, hspec]
  rfl

/-- Witness for C10 on a concrete table: column `a` (upper-cased `A`) has
the alias `VAR1` and is written under it; column `B` has no alias entry and
writes nothing. -/
theorem C10_save_config_alias_gating_witness :
    ∃ idItem : Nat,
      getItemID (insertItemIfNotExists [] "it" 1) "it" = .ok idItem
      ∧ saveConfigFromTable [] [] "it" 1 "u" ["v1", "v2"]
            [{ title := "a", width := 20 }, { title := "B", width := 20 }]
            [("A", "VAR1")]
          = .ok (insertItemIfNotExists [] "it" 1,
                 (configWritesSpec idItem "u" ["v1", "v2"]
                    [{ title := "a", width := 20 }, { title := "B", width := 20 }]
                    [("A", "VAR1")]).foldl upsertConfig [])
      ∧ ((∀ c ∈ [({ title := "a", width := 20 } : Column),
            { title := "B", width := 20 }],
            lookupS [("A", "VAR1")] (goToUpper c.title) = none) →
          saveConfigFromTable [] [] "it" 1 "u" ["v1", "v2"]
              [{ title := "a", width := 20 }, { title := "B", width := 20 }]
              [("A", "VAR1")]
            = .ok (insertItemIfNotExists [] "it" 1, [])) :=
  C10_save_config_alias_gating [] [] "it" 1 "u" ["v1", "v2"]
    [{ title := "a", width := 20 }, { title := "B", width := 20 }] [("A", "VAR1")]

/-- Concrete driver used for the C4 divergence: one query `"Q"` returning a
single row with a single column physically named `status`. -/
def execC4 : String → Except String (List Row × List String) :=
  fun q => if q = "Q" then .ok ([["x"]], ["status"]) else .error "no such table"

/-- C4 fails on the code: with a width stored under the alias name `ST` of
column `STATUS`, the startup pipeline (whose `applyColumnWidths` never
consults the aliases map) shows width 20, while committing an empty filter
(whose `FilterContent` resolves the alias first) shows width 30, so the two
displays are not byte-identical. -/
theorem C4_startup_vs_empty_filter_divergence :
    startupDisplay execC4 [("ST", 30)] [("STATUS", "ST")] "Q"
        = .ok ([["x"]], [{ title := "STATUS", width := 20 }])
    ∧ filterContent execC4 (.ok ([("ST", 30)], [("STATUS", "ST")], 10)) "Q" "" ""
        = .ok ([["x"]], [{ title := "STATUS", width := 30 }])
    ∧ startupDisplay execC4 [("ST", 30)] [("STATUS", "ST")] "Q"
        ≠ filterContent execC4 (.ok ([("ST", 30)], [("STATUS", "ST")], 10)) "Q" "" "" :=
  ⟨by decide, by decide, by decide⟩

/-- C5 fails on the code as stated: the fixed separator `|` can occur in
cell values, and then the join is not injective; also the empty row list and
the one-empty-cell row collide. -/
theorem C5_separator_occurs_counterexample :
    joinCells ["a|b"] = joinCells ["a", "b"]
    ∧ (["a|b"] : List String) ≠ ["a", "b"]
    ∧ '|' ∈ ("a|b" : String).data
    ∧ joinCells [] = joinCells [""]
    ∧ ([] : List String) ≠ [""] := by
  exact ⟨by decide, by decide, by decide, by decide, by decide⟩

theorem joinCells_cons2_data (s t : String) (ts : List String) :
    (joinCells (s :: t :: ts)).data = s.data ++ '|' :: (joinCells (t :: ts)).data := by
  show (s ++ "|" ++ joinCells (t :: ts)).data = _
  rw [String.data_append, String.data_append]
  simp

/-- Splitting an equation between separator-free blocks: when `x` and `y`
contain no `|` and `A` and `B` are empty or start with `|`, the equation
`x ++ A = y ++ B` forces `x = y` and `A = B`. -/
theorem sep_split (x : List Char) :
    ∀ (y A B : List Char), '|' ∉ x → '|' ∉ y →
      (A = [] ∨ ∃ A2, A = '|' :: A2) → (B = [] ∨ ∃ B2, B = '|' :: B2) →
      x ++ A = y ++ B → x = y ∧ A = B := by
  induction x with
  | nil =>
      intro y A B hx hy hA hB heq
      cases y with
      | nil => exact ⟨rfl, by simpa using heq⟩
      | cons d ys =>
          rcases hA with rfl | ⟨A2, rfl⟩
          · simp at heq
          · rw [List.nil_append, List.cons_append] at heq
            injection heq with h1 h2
            exact absurd (h1 ▸ List.mem_cons_self d ys) hy
  | cons c xs ih =>
      intro y A B hx hy hA hB heq
      cases y with
      | nil =>
          rcases hB with rfl | ⟨B2, rfl⟩
          · simp at heq
          · rw [List.nil_append, List.cons_append] at heq
            injection heq with h1 h2
            exact absurd (h1 ▸ List.mem_cons_self c xs) hx
      | cons d ys =>
          rw [List.cons_append, List.cons_append] at heq
          injection heq with h1 h2
          have hx2 : '|' ∉ xs := fun hm => hx (List.mem_cons_of_mem _ hm)
          have hy2 : '|' ∉ ys := fun hm => hy (List.mem_cons_of_mem _ hm)
          obtain ⟨hxy, hAB⟩ := ih ys A B hx2 hy2 hA hB h2
          exact ⟨by rw [h1, hxy], hAB⟩

/-- Injectivity of the cell join on non-empty rows whose cells avoid the
separator, at the level of character data. -/
theorem joinCells_data_inj (r1 : List String) :
    ∀ r2 : List String, r1 ≠ [] → r2 ≠ [] →
      (∀ s ∈ r1, '|' ∉ s.data) → (∀ s ∈ r2, '|' ∉ s.data) →
      joinCells r1 = joinCells r2 → r1 = r2 := by
  induction r1 with
  | nil => intro r2 h1; exact absurd rfl h1
  | cons x xs ih =>
      intro r2 h1 h2 hf1 hf2 heq
      cases r2 with
      | nil => exact absurd rfl h2
      | cons y ys =>
          have hdata : (joinCells (x :: xs)).data = (joinCells (y :: ys)).data := by
            rw [heq]
          have hx : '|' ∉ x.data := hf1 x (List.mem_cons_self x xs)
          have hy : '|' ∉ y.data := hf2 y (List.mem_cons_self y ys)
          cases xs with
          | nil =>
              cases ys with
              | nil =>
                  have hxy : x = y := String.ext hdata
                  rw [hxy]
              | cons y2 ys2 =>
                  rw [joinCells_cons2_data] at hdata
                  have h0 := sep_split x.data y.data []
                    ('|' :: (joinCells (y2 :: ys2)).data) hx hy (Or.inl rfl)
                    (Or.inr ⟨_, rfl⟩) (by simpa using hdata)
                  exact absurd h0.2.symm (List.cons_ne_nil _ _)
          | cons x2 xs2 =>
              cases ys with
              | nil =>
                  rw [joinCells_cons2_data] at hdata
                  have h0 := sep_split x.data y.data
                    ('|' :: (joinCells (x2 :: xs2)).data) [] hx hy
                    (Or.inr ⟨_, rfl⟩) (Or.inl rfl) (by simpa using hdata)
                  exact absurd h0.2 (List.cons_ne_nil _ _)
              | cons y2 ys2 =>
                  rw [joinCells_cons2_data, joinCells_cons2_data] at hdata
                  have h0 := sep_split x.data y.data
                    ('|' :: (joinCells (x2 :: xs2)).data)
                    ('|' :: (joinCells (y2 :: ys2)).data) hx hy
                    (Or.inr ⟨_, rfl⟩) (Or.inr ⟨_, rfl⟩) hdata
                  have hxy : x = y := String.ext h0.1
                  have h3 := h0.2
                  injection h3 with h4 h5
                  have htail : joinCells (x2 :: xs2) = joinCells (y2 :: ys2) :=
                    String.ext h5
                  have hf1t : ∀ s ∈ x2 :: xs2, '|' ∉ s.data :=
                    fun s hs => hf1 s (List.mem_cons_of_mem _ hs)
                  have hf2t : ∀ s ∈ y2 :: ys2, '|' ∉ s.data :=
                    fun s hs => hf2 s (List.mem_cons_of_mem _ hs)
                  have htl := ih (y2 :: ys2) (List.cons_ne_nil _ _)
                    (List.cons_ne_nil _ _) hf1t hf2t htail
                  rw [hxy, htl]

/-- C5 amended: the Row Identity Hasher joins the cells with the fixed
separator `|`, which may occur in cell values; the join is injective on
non-empty rows none of whose cells contains the separator. -/
theorem C5_join_injective_on_sep_free_rows (r1 r2 : List String)
    (h1 : r1 ≠ []) (h2 : r2 ≠ [])
    (hf1 : ∀ s ∈ r1, '|' ∉ s.data) (hf2 : ∀ s ∈ r2, '|' ∉ s.data)
    (heq : joinCells r1 = joinCells r2) : r1 = r2 :=
  joinCells_data_inj r1 r2 h1 h2 hf1 hf2 heq

/-- Witness for the amended C5 at a concrete separator-free row. -/
theorem C5_join_injective_on_sep_free_rows_witness :
    ((["ab", "c"] : List String) ≠ [] ∧ (∀ s ∈ (["ab", "c"] : List String), '|' ∉ s.data)
      ∧ joinCells ["ab", "c"] = joinCells ["ab", "c"])
    ∧ (["ab", "c"] : List String) = ["ab", "c"] :=
  ⟨⟨by decide, by decide, rfl⟩,
   C5_join_injective_on_sep_free_rows ["ab", "c"] ["ab", "c"] (by decide)
     (by decide) (by decide) (by decide) rfl⟩

end Tel
